import Mathlib

/-!
Verification development for the SkillTree editor (`src/app/components/SkillCanvas.tsx`,
`src/app/lib/types.ts`).  The component's state and its event handlers are embedded
shallowly: JavaScript numbers become `ℚ`, the React `useState` world plus the two
history stacks become explicit records, and each handler becomes a pure function
`State → State` translated clause by clause from the source.  `uid()` is random in the
source, so every operation that mints an id takes the id as an argument.
-/

namespace SkillTree

/-- Node colour enumeration from `types.ts` (`'sky' | 'emerald' | 'amber' | 'rose' | 'violet'`). -/
inductive Color where
  | sky
  | emerald
  | amber
  | rose
  | violet
deriving DecidableEq, Repr

/-- Node size enumeration from `types.ts` (`'small' | 'medium' | 'large'`). -/
inductive Size where
  | small
  | medium
  | large
deriving DecidableEq, Repr

/-- Point record from `types.ts`: `{ x: number; y: number }`. -/
structure Point where
  x : ℚ
  y : ℚ
deriving DecidableEq, Repr

/-- Node record from `types.ts` (`NodeT`); `icon`, `color`, `size` are optional fields. -/
structure NodeT where
  id : String
  x : ℚ
  y : ℚ
  name : String
  icon : Option String := none
  color : Option Color := none
  size : Option Size := none
deriving DecidableEq, Repr

/-- Edge record from `types.ts` (`EdgeT`); `label` is optional. -/
structure EdgeT where
  id : String
  fromId : String
  toId : String
  label : Option String := none
deriving DecidableEq, Repr

/-- Interaction mode from `types.ts`: `'idle' | 'add-node' | 'drag-node' | 'connect'`. -/
inductive Mode where
  | idle
  | addNode
  | dragNode
  | connect
deriving DecidableEq, Repr

/-- World state from `types.ts` (`WorldState`): pan offset, zoom, graph, mode and the
drag gesture datum `draggingNodeId`. -/
structure WorldState where
  panX : ℚ
  panY : ℚ
  zoom : ℚ
  nodes : List NodeT
  edges : List EdgeT
  mode : Mode
  draggingNodeId : Option String
deriving DecidableEq, Repr

/-- Initial `useState` value in `SkillCanvas`: empty graph, identity view, idle mode. -/
def initialWorld : WorldState :=
  { panX := 0, panY := 0, zoom := 1, nodes := [], edges := [], mode := .idle,
    draggingNodeId := none }

/-! Geometry helpers. -/

/-- Helper `screenToWorld` from `SkillCanvas` (the `zoom=1 for now` comment in the
source): `(sx, sy) ↦ (sx - panX, sy - panY)`; the zoom factor is not consulted. -/
def screenToWorld (w : WorldState) (sx sy : ℚ) : Point :=
  { x := sx - w.panX, y := sy - w.panY }

/-- Render mapping of the world layer, from the CSS style
`translate(panX, panY) scale(zoom)` with `transformOrigin: 0 0`: a world point is
scaled by `zoom` and then shifted by the pan offset. -/
def worldToScreen (w : WorldState) (p : Point) : Point :=
  { x := p.x * w.zoom + w.panX, y := p.y * w.zoom + w.panY }

/-- World coordinates under a cursor position, as computed inline in `onBgWheel`
(`wx = (sx - world.panX) / world.zoom`, likewise for `y`). -/
def worldUnderCursor (w : WorldState) (sx sy : ℚ) : Point :=
  { x := (sx - w.panX) / w.zoom, y := (sy - w.panY) / w.zoom }

/-- Helper `clamp(n, min, max) = Math.max(min, Math.min(max, n))` from the source. -/
def clamp (n lo hi : ℚ) : ℚ := max lo (min hi n)

/-- Helper `snapTo(v, step) = Math.round(v / step) * step` from the source;
`Math.round` rounds half toward positive infinity, matching Mathlib's `round`. -/
def snapTo (v step : ℚ) : ℚ := (round (v / step) : ℤ) * step

/-- Grid pitch `gridSize = 40` from the source. -/
def gridSize : ℚ := 40

/-- Zoom lower bound `ZOOM_MIN = 0.25` from the source. -/
def zoomMin : ℚ := 1 / 4

/-- Zoom upper bound `ZOOM_MAX = 2` from the source. -/
def zoomMax : ℚ := 2

/-- Zoom multiplier `ZOOM_STEP = 1.1` from the source. -/
def zoomStep : ℚ := 11 / 10

/-! Graph mutations.  The source mutates `world` inline inside event handlers; the
four graph operations below are those `setWorld` updates extracted verbatim. -/

/-- Membership of a node id in the node collection (`world.nodes.some(n => n.id === id)`). -/
def hasNode (w : WorldState) (nid : String) : Bool :=
  w.nodes.any (fun n => n.id == nid)

/-- Node insertion from the add-node branch of `onBgPointerDown`:
`nodes: [...w.nodes, newNode]`.  The freshly generated node is the argument. -/
def addNode (w : WorldState) (n : NodeT) : WorldState :=
  { w with nodes := w.nodes ++ [n] }

/-- Node deletion from the Delete/Backspace handler and the modal's Delete Node
button: the node is filtered out of `nodes` and every incident edge is filtered out
of `edges` in the same update. -/
def deleteNode (w : WorldState) (nid : String) : WorldState :=
  { w with
    nodes := w.nodes.filter (fun n => n.id != nid),
    edges := w.edges.filter (fun e => e.fromId != nid && e.toId != nid) }

/-- Test from the connect-mode handler deciding whether an edge already joins the
pair in either direction. -/
def edgeConnects (e : EdgeT) (a b : String) : Bool :=
  (e.fromId == a && e.toId == b) || (e.fromId == b && e.toId == a)

/-- Edge insertion from the connect-mode branch of the node pointer-down handler:
a click on the source node again cancels (no self edge), an existing edge in either
direction suppresses the insert, otherwise a fresh edge is appended. -/
def addEdge (w : WorldState) (eid a b : String) : WorldState :=
  if a == b then w
  else if w.edges.any (fun e => edgeConnects e a b) then w
  else { w with edges := w.edges ++ [{ id := eid, fromId := a, toId := b }] }

/-- Edge deletion from the Delete/Backspace handler's selected-edge branch:
`edges: w.edges.filter(ed => ed.id !== selectedEdgeId)`. -/
def deleteEdge (w : WorldState) (eid : String) : WorldState :=
  { w with edges := w.edges.filter (fun e => e.id != eid) }

/-! Operation sequences over the graph store, for the referential-integrity claim. -/

/-- A graph-store operation: one of the four mutations above with its arguments. -/
inductive GOp where
  | addN (n : NodeT)
  | delN (nid : String)
  | addE (eid a b : String)
  | delE (eid : String)
deriving DecidableEq, Repr

/-- Application of one graph-store operation. -/
def applyOp (w : WorldState) : GOp → WorldState
  | .addN n => addNode w n
  | .delN nid => deleteNode w nid
  | .addE eid a b => addEdge w eid a b
  | .delE eid => deleteEdge w eid

/-- Application of a sequence of graph-store operations, first operation first. -/
def applyOps (w : WorldState) : List GOp → WorldState
  | [] => w
  | op :: rest => applyOps (applyOp w op) rest

/-- Referential integrity: every edge joins two distinct node ids that are both
present in the node collection. -/
def integrityOk (w : WorldState) : Bool :=
  w.edges.all (fun e => e.fromId != e.toId && hasNode w e.fromId && hasNode w e.toId)

/-! History manager.  The source keeps `world`, `undoStack` and `redoStack` in three
`useState` cells; `AppState` bundles them.  `cloneWorld` is
`JSON.parse(JSON.stringify(w))`, which on the `WorldState` fields (numbers, strings,
arrays, null) reproduces an equal structure, so it is the identity on the embedding. -/

/-- Combined component state: the world plus the two history stacks.  The top of
each stack is the last list element, matching the source's `array.push` /
`array[array.length - 1]` usage. -/
structure AppState where
  world : WorldState
  undoStack : List WorldState
  redoStack : List WorldState
deriving DecidableEq, Repr

/-- History bound `HIST_LIMIT = 100` from the source. -/
def histLimit : Nat := 100

/-- Deep clone `cloneWorld(w) = JSON.parse(JSON.stringify(w))`; identity on the
embedded record. -/
def cloneWorld (w : WorldState) : WorldState := w

/-- History commit from the source: pushes a clone of the world as it is at call
time onto the undo stack, keeps only the most recent `HIST_LIMIT` entries
(`next.slice(next.length - HIST_LIMIT)`), and clears the redo stack. -/
def commit (s : AppState) : AppState :=
  let next := s.undoStack ++ [cloneWorld s.world]
  { s with
    undoStack := if next.length > histLimit then next.drop (next.length - histLimit) else next,
    redoStack := [] }

/-- Undo from the source: a no-op on an empty undo stack; otherwise pushes a clone of
the current world onto the redo stack, restores the top undo entry as the world, and
pops it. -/
def undo (s : AppState) : AppState :=
  match s.undoStack.getLast? with
  | none => s
  | some prev =>
    { world := prev,
      undoStack := s.undoStack.dropLast,
      redoStack := s.redoStack ++ [cloneWorld s.world] }

/-- Redo from the source: the mirror of `undo`, moving the top redo entry back into
the world and pushing the current world onto the undo stack. -/
def redo (s : AppState) : AppState :=
  match s.redoStack.getLast? with
  | none => s
  | some next =>
    { world := next,
      undoStack := s.undoStack ++ [cloneWorld s.world],
      redoStack := s.redoStack.dropLast }

/-! Interaction handlers relevant to the claims, translated from the source event
handlers.  Pointer coordinates and deltas are arguments. -/

/-- Node pointer-down (drag start) from `onNodePointerDown`: enters `drag-node` mode
and records the dragged node id; no history commit happens here. -/
def onNodePointerDown (s : AppState) (nid : String) : AppState :=
  { s with world := { s.world with mode := .dragNode, draggingNodeId := some nid } }

/-- Node pointer-move from `onNodePointerMove`: guarded on being in `drag-node` mode
for this node; translates the node by the pointer delta.  No history commit. -/
def onNodePointerMove (s : AppState) (nid : String) (dx dy : ℚ) : AppState :=
  if s.world.mode == .dragNode && s.world.draggingNodeId == some nid then
    { s with world := { s.world with
        nodes := s.world.nodes.map (fun n =>
          if n.id == nid then { n with x := n.x + dx, y := n.y + dy } else n) } }
  else s

/-- Node pointer-up from `onNodePointerUp`: guarded like the move handler; calls
`commit()` (capturing the world as it stands at pointer-up), then returns to idle,
snapping the node to the grid first when snap is enabled. -/
def onNodePointerUp (s : AppState) (snap : Bool) (nid : String) : AppState :=
  if s.world.mode == .dragNode && s.world.draggingNodeId == some nid then
    let s' := commit s
    if snap then
      { s' with world := { s'.world with
          nodes := s'.world.nodes.map (fun n =>
            if n.id == nid then
              { n with x := snapTo n.x gridSize, y := snapTo n.y gridSize }
            else n),
          mode := .idle, draggingNodeId := none } }
    else
      { s' with world := { s'.world with mode := .idle, draggingNodeId := none } }
  else s

/-- Background pan from `onBgPointerMove`: accumulates the screen-space pointer delta
into the pan offset; zoom untouched, no commit. -/
def onBgPointerMove (w : WorldState) (dx dy : ℚ) : WorldState :=
  { w with panX := w.panX + dx, panY := w.panY + dy }

/-- Reset View button handler: `commit()` then `setWorld({...w, panX: 0, panY: 0, zoom: 1})`. -/
def resetView (s : AppState) : AppState :=
  let s' := commit s
  { s' with world := { s'.world with panX := 0, panY := 0, zoom := 1 } }

/-- Wheel handler `onBgWheel`: ignored without ctrl/cmd; otherwise computes the world
point under the cursor, applies the multiplicative zoom step (inverted for wheel
down), clamps the new zoom to `[ZOOM_MIN, ZOOM_MAX]`, and solves the new pan so the
same world point stays under the cursor. -/
def onBgWheel (w : WorldState) (ctrl : Bool) (sx sy deltaY : ℚ) : WorldState :=
  if !ctrl then w
  else
    let wx := (sx - w.panX) / w.zoom
    let wy := (sy - w.panY) / w.zoom
    let factor := if deltaY > 0 then 1 / zoomStep else zoomStep
    let newZoom := clamp (w.zoom * factor) zoomMin zoomMax
    { w with zoom := newZoom, panX := sx - wx * newZoom, panY := sy - wy * newZoom }

/-! Persistence codec. -/

/-- View section of a snapshot; the source reads each field with a `?? default`
fallback, so the fields are optional here. -/
structure ViewJSON where
  panX : Option ℚ
  panY : Option ℚ
  zoom : Option ℚ
deriving DecidableEq, Repr

/-- Project snapshot (`ProjectJSON` in the source, metadata fields omitted: they feed
only the project-name UI state, which no claim mentions). -/
structure ProjectJSON where
  version : Int
  view : ViewJSON
  nodes : List NodeT
  edges : List EdgeT
deriving DecidableEq, Repr

/-- Codec `deserialize` from the source: throws `"Unsupported version"` unless
`version === 1`; filters out edges whose endpoints are not both in the loaded node
id set; defaults missing node `color`/`size`; installs the view with `??` fallbacks;
resets the mode to idle and clears the drag gesture. -/
def deserialize (p : ProjectJSON) : Except String WorldState :=
  if p.version ≠ 1 then .error "Unsupported version"
  else
    let edges := p.edges.filter (fun e =>
      p.nodes.any (fun n => n.id == e.fromId) && p.nodes.any (fun n => n.id == e.toId))
    .ok
      { panX := p.view.panX.getD 0,
        panY := p.view.panY.getD 0,
        zoom := p.view.zoom.getD 1,
        nodes := p.nodes.map (fun n =>
          { n with color := some (n.color.getD .sky), size := some (n.size.getD .small) }),
        edges := edges,
        mode := .idle,
        draggingNodeId := none }

/-- Import wiring from the file-input `onChange` handler: `deserialize` inside a
`try`/`catch`, so a thrown version error leaves the current world untouched. -/
def importApply (w : WorldState) (p : ProjectJSON) : WorldState :=
  match deserialize p with
  | .error _ => w
  | .ok w' => w'

/-! Settings form. -/

/-- Save handler of the node-settings modal (Save button and the Enter key path,
which are textually identical in the source): the edited node's name becomes the
trimmed label unless that is empty (`tempLabel.trim() || nd.name`), and the chosen
color and size are installed; every other node is untouched. -/
def saveNodeSettings (w : WorldState) (editingId : String) (label : String)
    (c : Color) (sz : Size) : WorldState :=
  { w with nodes := w.nodes.map (fun nd =>
      if nd.id == editingId then
        { nd with
          name := if label.trim == "" then nd.name else label.trim,
          color := some c, size := some sz }
      else nd) }

/-! Concrete fixtures used by counterexamples and witnesses. -/

/-- Sample node with id `a`. -/
def nodeA : NodeT := { id := "a", x := 0, y := 0, name := "A" }

/-- Sample node with id `b`. -/
def nodeB : NodeT := { id := "b", x := 3, y := 0, name := "B" }

/-! Referential integrity (claim C1). -/

/-- Precondition on an operation sequence: every `addE` is issued with two endpoint
ids present in the node collection at the moment it is applied. -/
def opsOk : WorldState → List GOp → Bool
  | _, [] => true
  | w, op :: rest =>
    (match op with
     | .addE _ a b => hasNode w a && hasNode w b
     | _ => true) && opsOk (applyOp w op) rest

/-- Unfolded, membership-level reading of `integrityOk`. -/
theorem integrityOk_iff (w : WorldState) :
    integrityOk w = true ↔
      ∀ e ∈ w.edges, e.fromId ≠ e.toId ∧
        (∃ n ∈ w.nodes, n.id = e.fromId) ∧ (∃ n ∈ w.nodes, n.id = e.toId) := by
  simp [integrityOk, hasNode, List.all_eq_true, List.any_eq_true, and_assoc]

/-- Adding a node preserves referential integrity. -/
theorem integrity_addNode (w : WorldState) (n : NodeT)
    (h : integrityOk w = true) : integrityOk (addNode w n) = true := by
  rw [integrityOk_iff] at h ⊢
  intro e he
  obtain ⟨h1, ⟨n1, hn1, hid1⟩, ⟨n2, hn2, hid2⟩⟩ := h e he
  exact ⟨h1, ⟨n1, by simp [addNode, hn1], hid1⟩, ⟨n2, by simp [addNode, hn2], hid2⟩⟩

/-- Deleting a node (with its incident edges) preserves referential integrity. -/
theorem integrity_deleteNode (w : WorldState) (nid : String)
    (h : integrityOk w = true) : integrityOk (deleteNode w nid) = true := by
  rw [integrityOk_iff] at h ⊢
  intro e he
  simp only [deleteNode, List.mem_filter, Bool.and_eq_true, bne_iff_ne, ne_eq] at he
  obtain ⟨hmem, hf, ht⟩ := he
  obtain ⟨h1, ⟨n1, hn1, hid1⟩, ⟨n2, hn2, hid2⟩⟩ := h e hmem
  refine ⟨h1, ⟨n1, ?_, hid1⟩, ⟨n2, ?_, hid2⟩⟩
  · simp only [deleteNode, List.mem_filter, bne_iff_ne, ne_eq]
    exact ⟨hn1, by simp [hid1, hf]⟩
  · simp only [deleteNode, List.mem_filter, bne_iff_ne, ne_eq]
    exact ⟨hn2, by simp [hid2, ht]⟩

/-- Adding an edge whose endpoints are both present preserves referential
integrity. -/
theorem integrity_addEdge (w : WorldState) (eid a b : String)
    (ha : hasNode w a = true) (hb : hasNode w b = true)
    (h : integrityOk w = true) : integrityOk (addEdge w eid a b) = true := by
  unfold addEdge
  split
  · exact h
  · split
    · exact h
    · rename_i hne _
      rw [integrityOk_iff] at h ⊢
      simp only [List.mem_append, List.mem_singleton]
      intro e he
      rcases he with he | he
      · exact h e he
      · subst he
        simp only [hasNode, List.any_eq_true, beq_iff_eq] at ha hb
        refine ⟨?_, ?_, ?_⟩
        · intro hab
          exact hne (by simp only [beq_iff_eq]; exact hab)
        · simpa using ha
        · simpa using hb

/-- Deleting an edge preserves referential integrity. -/
theorem integrity_deleteEdge (w : WorldState) (eid : String)
    (h : integrityOk w = true) : integrityOk (deleteEdge w eid) = true := by
  rw [integrityOk_iff] at h ⊢
  intro e he
  simp only [deleteEdge, List.mem_filter] at he
  exact h e he.1

/-- Integrity is preserved along any operation sequence whose `addE` steps satisfy
the endpoint-presence precondition. -/
theorem integrity_applyOps (ops : List GOp) :
    ∀ w : WorldState, integrityOk w = true → opsOk w ops = true →
      integrityOk (applyOps w ops) = true := by
  induction ops with
  | nil => intro w h _; exact h
  | cons op rest ih =>
    intro w h hok
    cases op with
    | addN n =>
      simp only [opsOk, Bool.and_eq_true] at hok
      exact ih _ (integrity_addNode w n h) hok.2
    | delN nid =>
      simp only [opsOk, Bool.and_eq_true] at hok
      exact ih _ (integrity_deleteNode w nid h) hok.2
    | addE eid a b =>
      simp only [opsOk, Bool.and_eq_true] at hok
      exact ih _ (integrity_addEdge w eid a b hok.1.1 hok.1.2 h) hok.2
    | delE eid =>
      simp only [opsOk, Bool.and_eq_true] at hok
      exact ih _ (integrity_deleteEdge w eid h) hok.2

/-- Claim C1 is false as stated: from the empty world, `addNode` of node `a` followed
by `addEdge` with the absent endpoint id `b` produces a state holding an edge whose
`toId` references no node — the connect handler never checks that its endpoint ids
are still present. -/
theorem c1_counterexample :
    integrityOk (applyOps initialWorld [GOp.addN nodeA, GOp.addE "e1" "a" "b"]) = false := by
  decide

/-- Claim C1 (amended): starting from the empty world state, every sequence of
`addNode`/`deleteNode`/`addEdge`/`deleteEdge` operations in which each `addEdge` is
issued with two endpoint ids present in the node collection at that moment yields a
state where every edge references two distinct nodes both present in the node
collection. -/
theorem c1_referential_integrity (ops : List GOp)
    (h : opsOk initialWorld ops = true) :
    integrityOk (applyOps initialWorld ops) = true :=
  integrity_applyOps ops initialWorld (by decide) h

/-- Witness for C1: a concrete add/connect/delete sequence satisfying the endpoint
precondition keeps referential integrity. -/
theorem c1_witness :
    opsOk initialWorld
        [GOp.addN nodeA, GOp.addN nodeB, GOp.addE "e1" "a" "b", GOp.delN "a"] = true ∧
      integrityOk (applyOps initialWorld
        [GOp.addN nodeA, GOp.addN nodeB, GOp.addE "e1" "a" "b", GOp.delN "a"]) = true :=
  ⟨by decide, c1_referential_integrity _ (by decide)⟩

/-! Node drag and the undo history (claim C2). -/

/-- Fixture: idle component state whose world holds the single node `a` at the
origin, with empty history stacks. -/
def dragStart : AppState :=
  { world := { initialWorld with nodes := [nodeA] }, undoStack := [], redoStack := [] }

/-- Claim C2 evaluated on the code.  The first half of the claim holds: pointer-move
frames never touch the history stacks.  The second half fails: in the concrete drag
gesture below (pointer-down on `a`, one move by `(10, 0)`, pointer-up with snap off,
then undo), the node ends at `x = 10`, not at its pre-drag position `x = 0` — the
single `commit()` at pointer-up clones the world after the moves have already
shifted the node, so the history entry holds the post-drag position. -/
theorem c2_drag_undo_code_bug :
    (∀ (s : AppState) (nid : String) (dx dy : ℚ),
        (onNodePointerMove s nid dx dy).undoStack = s.undoStack ∧
        (onNodePointerMove s nid dx dy).redoStack = s.redoStack) ∧
      (undo (onNodePointerUp (onNodePointerMove (onNodePointerDown dragStart "a") "a" 10 0)
          false "a")).world.nodes.map NodeT.x = [10] ∧
      dragStart.world.nodes.map NodeT.x = [0] := by
  refine ⟨?_, ?_, ?_⟩
  · intro s nid dx dy
    unfold onNodePointerMove
    split <;> simp
  · simp [dragStart, initialWorld, nodeA, undo, commit, onNodePointerUp,
      onNodePointerMove, onNodePointerDown, cloneWorld, histLimit]
  · simp [dragStart, initialWorld, nodeA]

/-! Commit semantics (claim C3). -/

/-- Fixture: component state currently in add-node mode with a drag gesture datum
set, used to show `commit` clones these transient fields into the history entry. -/
def stateInAddMode : AppState :=
  { world := { initialWorld with mode := .addNode, draggingNodeId := some "a" },
    undoStack := [], redoStack := [] }

/-- Claim C3 is false as stated: the history entry pushed by `commit` does not
exclude the transient fields — committing from add-node mode with a drag datum set
stores an entry whose `mode` is `add-node` (not idle) and whose `draggingNodeId` is
still set, because `cloneWorld` serializes the whole `WorldState`. -/
theorem c3_counterexample :
    ((commit stateInAddMode).undoStack.getLast?).map WorldState.mode = some Mode.addNode ∧
      ((commit stateInAddMode).undoStack.getLast?).map WorldState.draggingNodeId =
        some (some "a") ∧
      Mode.addNode ≠ Mode.idle := by
  decide

/-- Claim C3 (amended): `commit` pushes a copy of the world state as it stands at
the moment of the call — including the transient mode and gesture fields — onto the
undo stack; when the stack would exceed `HIST_LIMIT = 100` entries the oldest entry
is evicted; and every commit clears the redo stack. -/
theorem c3_commit_semantics (s : AppState) :
    (commit s).redoStack = [] ∧
      (commit s).undoStack.getLast? = some s.world ∧
      (s.undoStack.length ≤ histLimit → (commit s).undoStack.length ≤ histLimit) ∧
      (s.undoStack.length < histLimit → (commit s).undoStack = s.undoStack ++ [s.world]) ∧
      (s.undoStack.length = histLimit →
        (commit s).undoStack = s.undoStack.tail ++ [s.world]) := by
  refine ⟨rfl, ?_, ?_, ?_, ?_⟩
  · simp only [commit, cloneWorld]
    split
    · rename_i hgt
      rw [List.drop_append_of_le_length
        (by simp only [histLimit, List.length_append, List.length_singleton]; omega)]
      exact List.getLast?_concat _
    · exact List.getLast?_concat _
  · intro hle
    simp only [commit, cloneWorld]
    split
    · rename_i hgt
      simp only [List.length_drop]
      omega
    · rename_i hgt
      simp only [List.length_append, List.length_singleton] at hgt ⊢
      omega
  · intro hlt
    simp only [commit, cloneWorld]
    split
    · rename_i hgt
      simp only [List.length_append, List.length_singleton] at hgt
      omega
    · rfl
  · intro heq
    simp only [commit, cloneWorld]
    split
    · rename_i hgt
      have harg : (s.undoStack ++ [s.world]).length - histLimit = 1 := by
        simp [heq, histLimit]
      rw [harg, List.drop_append_of_le_length (by simp [heq, histLimit]), List.drop_one]
    · rename_i hgt
      simp only [List.length_append, List.length_singleton, heq, histLimit] at hgt
      omega

/-- Witness for C3: committing on the empty-history fixture clears redo, stores the
current world on top, and keeps the stack within the bound. -/
theorem c3_witness :
    (commit stateInAddMode).redoStack = [] ∧
      (commit stateInAddMode).undoStack.getLast? = some stateInAddMode.world ∧
      (commit stateInAddMode).undoStack.length ≤ histLimit ∧
      (commit stateInAddMode).undoStack = stateInAddMode.undoStack ++ [stateInAddMode.world] :=
  ⟨(c3_commit_semantics stateInAddMode).1,
    (c3_commit_semantics stateInAddMode).2.1,
    (c3_commit_semantics stateInAddMode).2.2.1 (by decide),
    (c3_commit_semantics stateInAddMode).2.2.2.1 (by decide)⟩

/-! Screen/world coordinate inversion (claim C4). -/

/-- Fixture: world at zoom 2 (a zoom value inside `[ZOOM_MIN, ZOOM_MAX]`). -/
def wZoom2 : WorldState := { initialWorld with zoom := 2 }

/-- Claim C4 is false as stated: at zoom 2 — inside the claimed range `[0.25, 2]` —
rendering the world point `(1, 0)` and mapping the result back through
`screenToWorld` yields `(2, 0)`, because the helper subtracts the pan but never
divides by the zoom factor. -/
theorem c4_counterexample :
    (zoomMin ≤ wZoom2.zoom ∧ wZoom2.zoom ≤ zoomMax) ∧
      screenToWorld wZoom2 (worldToScreen wZoom2 ⟨1, 0⟩).x (worldToScreen wZoom2 ⟨1, 0⟩).y ≠
        (⟨1, 0⟩ : Point) := by
  constructor
  · constructor <;> norm_num [zoomMin, zoomMax, wZoom2, initialWorld]
  · simp [screenToWorld, worldToScreen, wZoom2, initialWorld]

/-- Claim C4 (amended): `screenToWorld` inverts the render transform exactly when
the zoom factor is 1 (the helper computes `sx - panX`, the zoom-1 specialisation):
for every transform with zoom 1 and every world point, rendering and then applying
`screenToWorld` is the identity. -/
theorem c4_screenToWorld_inverse (w : WorldState) (h : w.zoom = 1) (p : Point) :
    screenToWorld w (worldToScreen w p).x (worldToScreen w p).y = p := by
  cases p
  simp [screenToWorld, worldToScreen, h]

/-- Witness for C4: at the initial transform (zoom 1, zero pan) the round trip fixes
the point `(3, 4)`. -/
theorem c4_witness :
    screenToWorld initialWorld (worldToScreen initialWorld ⟨3, 4⟩).x
        (worldToScreen initialWorld ⟨3, 4⟩).y = (⟨3, 4⟩ : Point) :=
  c4_screenToWorld_inverse initialWorld (by decide) ⟨3, 4⟩

/-! Zoom anchor invariant (claim C5). -/

/-- Clamping into the zoom range never returns zero. -/
theorem clamp_zoom_ne_zero (x : ℚ) : clamp x zoomMin zoomMax ≠ 0 := by
  have h1 : (0:ℚ) < zoomMin := by norm_num [zoomMin]
  have h2 : zoomMin ≤ clamp x zoomMin zoomMax := le_max_left _ _
  exact ne_of_gt (lt_of_lt_of_le h1 h2)

/-- Claim C5: for every transform with positive zoom, cursor position and wheel
direction, the world point under the cursor — the inverse mapping
`(s - pan) / zoom` computed inline by `onBgWheel` — is unchanged by the wheel-zoom
operation, including when the new zoom is clamped at a bound (the new pan is solved
after clamping).  Exact over `ℚ`, hence within any floating-point tolerance. -/
theorem c5_zoom_anchor (w : WorldState) (_h : 0 < w.zoom) (sx sy deltaY : ℚ) :
    worldUnderCursor (onBgWheel w true sx sy deltaY) sx sy = worldUnderCursor w sx sy := by
  have hz := clamp_zoom_ne_zero (w.zoom * (if deltaY > 0 then 1 / zoomStep else zoomStep))
  simp only [onBgWheel, worldUnderCursor, Bool.not_true, Bool.false_eq_true, if_false,
    Point.mk.injEq]
  constructor
  · rw [sub_sub_cancel, mul_div_assoc, div_self hz, mul_one]
  · rw [sub_sub_cancel, mul_div_assoc, div_self hz, mul_one]

/-- Witness for C5: a concrete wheel-down event at cursor `(7, 5)` on the initial
transform preserves the world point under the cursor. -/
theorem c5_witness :
    worldUnderCursor (onBgWheel initialWorld true 7 5 1) 7 5 =
      worldUnderCursor initialWorld 7 5 :=
  c5_zoom_anchor initialWorld (by decide) 7 5 1

/-! Zoom range invariant (claim C6). -/

/-- Zoom range predicate: the value lies in `[ZOOM_MIN, ZOOM_MAX]`. -/
def zoomInRange (z : ℚ) : Prop := zoomMin ≤ z ∧ z ≤ zoomMax

/-- Zoom value 1 lies in the zoom range. -/
theorem zoomInRange_one : zoomInRange 1 := by
  constructor <;> norm_num [zoomInRange, zoomMin, zoomMax]

/-- Fixture: a version-1 snapshot whose stored zoom is 4, outside `[0.25, 2]`. -/
def badZoomSnapshot : ProjectJSON :=
  { version := 1, view := { panX := some 0, panY := some 0, zoom := some 4 },
    nodes := [], edges := [] }

/-- Claim C6 is false as stated: `deserialize` installs the snapshot's zoom without
clamping, so importing a version-1 snapshot with zoom 4 drives the transform's zoom
to 4, above the claimed upper bound 2. -/
theorem c6_counterexample :
    (importApply initialWorld badZoomSnapshot).zoom = 4 ∧ ¬ ((4:ℚ) ≤ zoomMax) := by
  constructor
  · simp [importApply, deserialize, badZoomSnapshot]
  · norm_num [zoomMax]

/-- Claim C6 (amended): wheel zoom always clamps into `[0.25, 2]`, panning and Reset
View keep zoom in range, and `deserialize` preserves the range exactly when the
snapshot's stored zoom (default 1 when missing) itself lies in `[0.25, 2]` — the
codec performs no clamping of its own. -/
theorem c6_zoom_range :
    (∀ (w : WorldState) (ctrl : Bool) (sx sy deltaY : ℚ),
        zoomInRange w.zoom → zoomInRange (onBgWheel w ctrl sx sy deltaY).zoom) ∧
      (∀ (w : WorldState) (dx dy : ℚ), (onBgPointerMove w dx dy).zoom = w.zoom) ∧
      (∀ s : AppState, (resetView s).world.zoom = 1 ∧ zoomInRange (resetView s).world.zoom) ∧
      (∀ (w : WorldState) (p : ProjectJSON), zoomInRange (p.view.zoom.getD 1) →
        zoomInRange w.zoom → zoomInRange (importApply w p).zoom) := by
  refine ⟨?_, ?_, ?_, ?_⟩
  · intro w ctrl sx sy deltaY hw
    cases ctrl with
    | false => simpa [onBgWheel] using hw
    | true =>
      simp only [onBgWheel, Bool.not_true, Bool.false_eq_true, if_false]
      constructor
      · exact le_max_left _ _
      · exact max_le (by norm_num [zoomMin, zoomMax]) (min_le_left _ _)
  · intro w dx dy
    rfl
  · intro s
    exact ⟨rfl, zoomInRange_one⟩
  · intro w p hp hw
    unfold importApply deserialize
    split
    · exact hw
    · rename_i w' heq
      split at heq
      · exact Except.noConfusion heq
      · injection heq with heq2
        subst heq2
        exact hp

/-- Witness for C6: a wheel-up event on the initial transform and an import of a
zoomless version-1 snapshot both leave zoom in `[0.25, 2]`. -/
theorem c6_witness :
    zoomInRange (onBgWheel initialWorld true 0 0 1).zoom ∧
      zoomInRange (importApply initialWorld
        { version := 1, view := { panX := none, panY := none, zoom := none },
          nodes := [], edges := [] }).zoom :=
  ⟨c6_zoom_range.1 initialWorld true 0 0 1 zoomInRange_one,
    c6_zoom_range.2.2.2 initialWorld _ zoomInRange_one zoomInRange_one⟩

/-! Edge deduplication (claim C7). -/

/-- The connect-handler duplicate test is symmetric in the two endpoints. -/
theorem edgeConnects_symm (e : EdgeT) (a b : String) :
    edgeConnects e a b = edgeConnects e b a := by
  simp [edgeConnects, Bool.or_comm]

/-- Number of edges joining the unordered pair `{a, b}` in either direction. -/
def pairEdgeCount (w : WorldState) (a b : String) : Nat :=
  (w.edges.filter (fun e => edgeConnects e a b)).length

/-- Claim C7: `addEdge` is order-independent and deduplicating — a self edge is
silently refused, an edge already joining the pair in either direction makes the
call a no-op, and from a state with no edge between distinct `a` and `b`, adding
`a → b` and then `b → a` leaves exactly one edge joining the pair. -/
theorem c7_addEdge_dedup :
    (∀ (w : WorldState) (eid a : String), addEdge w eid a a = w) ∧
      (∀ (w : WorldState) (eid a b : String),
        (w.edges.any (fun e => edgeConnects e a b)) = true → addEdge w eid a b = w) ∧
      (∀ (w : WorldState) (eid1 eid2 a b : String), a ≠ b → pairEdgeCount w a b = 0 →
        pairEdgeCount (addEdge (addEdge w eid1 a b) eid2 b a) a b = 1) := by
  refine ⟨?_, ?_, ?_⟩
  · intro w eid a
    simp [addEdge]
  · intro w eid a b hdup
    simp [addEdge, hdup]
  · intro w eid1 eid2 a b hab h0
    have hnone : ∀ e ∈ w.edges, edgeConnects e a b = false := by
      intro e he
      by_contra hc
      have : e ∈ w.edges.filter (fun e => edgeConnects e a b) :=
        List.mem_filter.mpr ⟨he, by simpa using hc⟩
      rw [pairEdgeCount, List.length_eq_zero] at h0
      simp [h0] at this
    have hany : (w.edges.any (fun e => edgeConnects e a b)) = false := by
      simp only [List.any_eq_false]
      intro e he
      simp [hnone e he]
    have hstep1 : addEdge w eid1 a b =
        { w with edges := w.edges ++ [{ id := eid1, fromId := a, toId := b }] } := by
      rw [addEdge, if_neg (by simpa using hab), if_neg (by simp [hany])]
    have hnew : edgeConnects { id := eid1, fromId := a, toId := b, label := none } b a = true := by
      simp [edgeConnects]
    have hstep2 : addEdge (addEdge w eid1 a b) eid2 b a = addEdge w eid1 a b := by
      rw [addEdge]
      split
      · rfl
      · rw [if_pos]
        simp only [hstep1, List.any_append, Bool.or_eq_true, List.any_eq_true]
        exact Or.inr ⟨_, List.mem_singleton.mpr rfl, hnew⟩
    rw [hstep2, hstep1, pairEdgeCount]
    rw [List.filter_append]
    rw [List.filter_eq_nil_iff.mpr (by intro e he; simp [hnone e he])]
    simp [edgeConnects]

/-- Witness for C7: on a two-node world with no edges, connecting `a → b` and then
`b → a` yields exactly one edge between the pair. -/
theorem c7_witness :
    pairEdgeCount (addEdge (addEdge { initialWorld with nodes := [nodeA, nodeB] }
      "e1" "a" "b") "e2" "b" "a") "a" "b" = 1 :=
  c7_addEdge_dedup.2.2 _ "e1" "e2" "a" "b" (by decide) (by decide)

/-! Undo/redo round trip (claim C8). -/

/-- Undo immediately followed by redo restores the whole component state whenever
the undo stack is nonempty. -/
theorem redo_undo (s : AppState) (h : s.undoStack ≠ []) : redo (undo s) = s := by
  rw [undo]
  rw [List.getLast?_eq_getLast _ h]
  simp only [redo, cloneWorld, List.getLast?_concat, List.dropLast_concat]
  cases s with
  | mk w u r =>
    simp only [AppState.mk.injEq, true_and, and_true]
    exact List.dropLast_append_getLast h

/-- Claim C8: undoing `n` times and then redoing `n` times restores the exact
pre-undo component state whenever at least `n` history entries exist; undo on an
empty undo stack is a no-op; and `commit` always clears the redo stack, so a new
committing action after an undo makes redo unavailable. -/
theorem c8_undo_redo_roundtrip :
    (∀ (s : AppState) (n : Nat), n ≤ s.undoStack.length →
        redo^[n] (undo^[n] s) = s) ∧
      (∀ s : AppState, s.undoStack = [] → undo s = s) ∧
      (∀ s : AppState, (commit s).redoStack = []) := by
  refine ⟨?_, ?_, ?_⟩
  · intro s n
    induction n generalizing s with
    | zero => intro _; simp
    | succ m ih =>
      intro hn
      have hne : s.undoStack ≠ [] := by
        intro hnil
        rw [hnil] at hn
        simp at hn
      have hu : (undo s).undoStack = s.undoStack.dropLast := by
        rw [undo, List.getLast?_eq_getLast _ hne]
      rw [show undo^[m + 1] s = undo^[m] (undo s) from Function.iterate_succ_apply undo m s]
      rw [show redo^[m + 1] (undo^[m] (undo s)) = redo (redo^[m] (undo^[m] (undo s))) from
        Function.iterate_succ_apply' redo m _]
      rw [ih (undo s) (by rw [hu]; simp [List.length_dropLast]; omega)]
      exact redo_undo s hne
  · intro s h
    rw [undo, h]
    rfl
  · intro s
    rfl

/-- Witness for C8: on a state with two history entries, two undos followed by two
redos restore it exactly; undo of an empty-history state is a no-op; a commit clears
the redo stack. -/
theorem c8_witness :
    redo^[2] (undo^[2]
        { world := initialWorld,
          undoStack := [{ initialWorld with panX := 5 }, { initialWorld with panX := 6 }],
          redoStack := [] }) =
      { world := initialWorld,
        undoStack := [{ initialWorld with panX := 5 }, { initialWorld with panX := 6 }],
        redoStack := [] } ∧
      undo { world := initialWorld, undoStack := [], redoStack := [] } =
        { world := initialWorld, undoStack := [], redoStack := [] } ∧
      (commit { world := initialWorld, undoStack := [], redoStack := [initialWorld] }).redoStack = [] :=
  ⟨c8_undo_redo_roundtrip.1 _ 2 (by decide),
    c8_undo_redo_roundtrip.2.1 _ rfl,
    c8_undo_redo_roundtrip.2.2 _⟩

/-! Snapshot loading (claim C9). -/

/-- Claim C9: `deserialize` rejects any snapshot whose version is not 1 with the
version error while the import wiring leaves the in-memory world untouched; an
accepted snapshot keeps exactly the edges whose endpoints are both in the loaded
node set (so every surviving edge references present nodes), preserves each node's
id/name/position while defaulting a missing color to sky and a missing size to
small, and resets the mode to idle with the drag gesture cleared. -/
theorem c9_deserialize (p : ProjectJSON) :
    (p.version ≠ 1 → deserialize p = .error "Unsupported version" ∧
        ∀ w : WorldState, importApply w p = w) ∧
      (∀ w' : WorldState, deserialize p = .ok w' →
        w'.edges = p.edges.filter (fun e =>
            p.nodes.any (fun n => n.id == e.fromId) && p.nodes.any (fun n => n.id == e.toId)) ∧
          (∀ e ∈ w'.edges, hasNode w' e.fromId = true ∧ hasNode w' e.toId = true) ∧
          w'.nodes.length = p.nodes.length ∧
          (∀ (i : Nat) (hi : i < p.nodes.length) (hi' : i < w'.nodes.length),
            (w'.nodes.get ⟨i, hi'⟩).id = (p.nodes.get ⟨i, hi⟩).id ∧
              (w'.nodes.get ⟨i, hi'⟩).name = (p.nodes.get ⟨i, hi⟩).name ∧
              (w'.nodes.get ⟨i, hi'⟩).x = (p.nodes.get ⟨i, hi⟩).x ∧
              (w'.nodes.get ⟨i, hi'⟩).y = (p.nodes.get ⟨i, hi⟩).y ∧
              (w'.nodes.get ⟨i, hi'⟩).color = some ((p.nodes.get ⟨i, hi⟩).color.getD .sky) ∧
              (w'.nodes.get ⟨i, hi'⟩).size = some ((p.nodes.get ⟨i, hi⟩).size.getD .small)) ∧
          w'.mode = .idle ∧ w'.draggingNodeId = none) := by
  constructor
  · intro hv
    constructor
    · rw [deserialize, if_pos hv]
    · intro w
      rw [importApply, deserialize]
      rw [if_pos hv]
  · intro w' h
    rw [deserialize] at h
    split at h
    · exact Except.noConfusion h
    · injection h with h2
      subst h2
      refine ⟨rfl, ?_, by simp, ?_, rfl, rfl⟩
      · intro e he
        simp only [List.mem_filter, Bool.and_eq_true] at he
        constructor
        · simpa [hasNode, List.any_map, Function.comp] using he.2.1
        · simpa [hasNode, List.any_map, Function.comp] using he.2.2
      · intro i hi hi'
        simp [List.get_eq_getElem, List.getElem_map]

/-- Fixture: a valid version-1 snapshot holding nodes `a`, `b`, one edge joining
them, and one dangling edge to the absent id `zz`. -/
def snapIn : ProjectJSON :=
  { version := 1, view := { panX := some 1, panY := some 2, zoom := some 1 },
    nodes := [nodeA, nodeB],
    edges := [{ id := "e1", fromId := "a", toId := "b" },
              { id := "e2", fromId := "a", toId := "zz" }] }

/-- Fixture: the world `deserialize` produces for `snapIn` — dangling edge dropped,
node defaults filled, idle mode. -/
def snapOut : WorldState :=
  { panX := 1, panY := 2, zoom := 1,
    nodes := [{ nodeA with color := some .sky, size := some .small },
              { nodeB with color := some .sky, size := some .small }],
    edges := [{ id := "e1", fromId := "a", toId := "b" }],
    mode := .idle, draggingNodeId := none }

/-- Fixture: a snapshot carrying the unsupported version 2. -/
def snapV2 : ProjectJSON :=
  { version := 2, view := { panX := none, panY := none, zoom := none },
    nodes := [], edges := [] }

/-- Witness for C9: importing the version-2 snapshot leaves the initial world
unchanged, and the accepted snapshot's surviving edges all reference present nodes
while the mode resets to idle. -/
theorem c9_witness :
    importApply initialWorld snapV2 = initialWorld ∧
      (∀ e ∈ snapOut.edges, hasNode snapOut e.fromId = true ∧ hasNode snapOut e.toId = true) ∧
      snapOut.mode = Mode.idle ∧ snapOut.draggingNodeId = none :=
  ⟨((c9_deserialize snapV2).1 (by decide)).2 initialWorld,
    ((c9_deserialize snapIn).2 snapOut (by rfl)).2.1,
    ((c9_deserialize snapIn).2 snapOut (by rfl)).2.2.2.2.1,
    ((c9_deserialize snapIn).2 snapOut (by rfl)).2.2.2.2.2⟩

/-! Settings-form save (claim C10). -/

/-- Claim C10: saving the node-settings form leaves the pan/zoom transform, the mode,
the gesture and all edges unchanged and keeps the node count; every node whose id is
not the edited one is untouched; the edited node keeps its id and position, always
receives the chosen color and size, and keeps its previous name exactly when the
submitted label trims to the empty string — otherwise the trimmed label replaces it. -/
theorem c10_save_settings (w : WorldState) (eid label : String) (c : Color) (sz : Size) :
    (saveNodeSettings w eid label c sz).panX = w.panX ∧
      (saveNodeSettings w eid label c sz).panY = w.panY ∧
      (saveNodeSettings w eid label c sz).zoom = w.zoom ∧
      (saveNodeSettings w eid label c sz).mode = w.mode ∧
      (saveNodeSettings w eid label c sz).draggingNodeId = w.draggingNodeId ∧
      (saveNodeSettings w eid label c sz).edges = w.edges ∧
      (saveNodeSettings w eid label c sz).nodes.length = w.nodes.length ∧
      (∀ (i : Nat) (hi : i < w.nodes.length) (hi' : i < (saveNodeSettings w eid label c sz).nodes.length),
        ((w.nodes.get ⟨i, hi⟩).id ≠ eid →
            (saveNodeSettings w eid label c sz).nodes.get ⟨i, hi'⟩ = w.nodes.get ⟨i, hi⟩) ∧
          ((w.nodes.get ⟨i, hi⟩).id = eid →
            ((saveNodeSettings w eid label c sz).nodes.get ⟨i, hi'⟩).id = (w.nodes.get ⟨i, hi⟩).id ∧
              ((saveNodeSettings w eid label c sz).nodes.get ⟨i, hi'⟩).x = (w.nodes.get ⟨i, hi⟩).x ∧
              ((saveNodeSettings w eid label c sz).nodes.get ⟨i, hi'⟩).y = (w.nodes.get ⟨i, hi⟩).y ∧
              ((saveNodeSettings w eid label c sz).nodes.get ⟨i, hi'⟩).color = some c ∧
              ((saveNodeSettings w eid label c sz).nodes.get ⟨i, hi'⟩).size = some sz ∧
              (label.trim = "" →
                ((saveNodeSettings w eid label c sz).nodes.get ⟨i, hi'⟩).name =
                  (w.nodes.get ⟨i, hi⟩).name) ∧
              (label.trim ≠ "" →
                ((saveNodeSettings w eid label c sz).nodes.get ⟨i, hi'⟩).name = label.trim))) := by
  refine ⟨rfl, rfl, rfl, rfl, rfl, rfl, by simp [saveNodeSettings], ?_⟩
  intro i hi hi'
  constructor
  · intro hne
    simp only [saveNodeSettings, List.get_eq_getElem, List.getElem_map]
    rw [if_neg (by simpa using hne)]
  · intro heq
    simp only [saveNodeSettings, List.get_eq_getElem, List.getElem_map]
    rw [if_pos (by simpa using heq)]
    refine ⟨rfl, rfl, rfl, rfl, rfl, ?_, ?_⟩
    · intro htrim
      simp [htrim]
    · intro htrim
      rw [if_neg (by simpa using htrim)]

/-- Fixture: two-node world for the settings-form witness. -/
def twoNodeWorld : WorldState :=
  { initialWorld with nodes := [nodeA, nodeB] }

/-- Witness for C10: saving the form for node `a` with color emerald and size large
keeps the edges, leaves node `b` (index 1) untouched, and applies color and size to
node `a` (index 0) while the name clause follows the label's trimmed value. -/
theorem c10_witness :
    (saveNodeSettings twoNodeWorld "a" "  hi  " Color.emerald Size.large).edges =
        twoNodeWorld.edges ∧
      (saveNodeSettings twoNodeWorld "a" "  hi  " Color.emerald Size.large).nodes.get
          ⟨1, by decide⟩ = twoNodeWorld.nodes.get ⟨1, by decide⟩ ∧
      ((saveNodeSettings twoNodeWorld "a" "  hi  " Color.emerald Size.large).nodes.get
          ⟨0, by decide⟩).color = some Color.emerald ∧
      ((saveNodeSettings twoNodeWorld "a" "  hi  " Color.emerald Size.large).nodes.get
          ⟨0, by decide⟩).size = some Size.large :=
  ⟨(c10_save_settings twoNodeWorld "a" "  hi  " Color.emerald Size.large).2.2.2.2.2.1,
    ((c10_save_settings twoNodeWorld "a" "  hi  " Color.emerald Size.large).2.2.2.2.2.2.2
        1 (by decide) (by decide)).1 (by decide),
    (((c10_save_settings twoNodeWorld "a" "  hi  " Color.emerald Size.large).2.2.2.2.2.2.2
        0 (by decide) (by decide)).2 (by decide)).2.2.2.1,
    (((c10_save_settings twoNodeWorld "a" "  hi  " Color.emerald Size.large).2.2.2.2.2.2.2
        0 (by decide) (by decide)).2 (by decide)).2.2.2.2.1⟩

end SkillTree
